import Mathlib

/-!
Shallow embedding of the room-booking system's scheduling core
(`src/utils/bookingHelper` = `src/unnamed/part_004`,
`src/controllers/bookingController.js`, `src/controllers/roomController.js`,
`src/routes/bookingRoutes.js`).

Modelling conventions:
* Instants are `Nat` timestamps in minutes; one calendar day is 1440 minutes,
  one week is 10080 minutes.  JavaScript `Date#getDay` is day-of-week with
  0 = Sunday; day 0 of the epoch is a Thursday, hence
  `weekday t = (t / 1440 + 4) % 7`.
* Mongo documents become Lean structures; a collection is a `List`.
* Each loop is translated as written; the two `while` loops of
  `generateRecurringDates` use explicit fuel that dominates their iteration
  count (the day-advance loop runs at most 6 times when `dayOfWeek < 7`
  because weekday cycles with period 7; the weekly collect loop runs at most
  `endDate + 1` times because the cursor grows by 10080 each step).
* `async` suspension points matter only for the explicitly modelled
  interleaving `interleavedNonAdminCreates`; every other operation is one
  atomic step, as in a single-request execution.
-/

namespace RoomBooking

inductive BStatus where
  | confirmed
  | cancelled
  | completed
deriving DecidableEq, Repr

/-- A persisted `Booking` document (fields used by the scheduling core). -/
structure Booking where
  id : Nat
  room : Nat
  bookedBy : Nat
  attendees : List Nat
  startTime : Nat
  endTime : Nat
  status : BStatus
  cancelledBy : Option Nat
  cancelledAt : Option Nat
  cancellationReason : Option String
  recurrenceGroup : Option Nat
deriving DecidableEq, Repr

/-- A persisted `RecurrenceGroup` document.  `baseStartTime`/`baseEndTime`
are the parsed `(hours, minutes)` of the stored `"H:MM"` strings. -/
structure RecurrenceGroup where
  id : Nat
  createdBy : Nat
  room : Nat
  dayOfWeek : Nat
  startDate : Nat
  endDate : Nat
  baseStartTime : Nat × Nat
  baseEndTime : Nat × Nat
deriving DecidableEq, Repr

structure Room where
  id : Nat
  name : String
  capacity : Nat
deriving DecidableEq, Repr

inductive NType where
  | bookingCreated
  | bookingCancelled
  | adminOverride
  | roomDeleted
deriving DecidableEq, Repr

/-- A `Notification` document (recipient, kind, optional booking/room refs). -/
structure Notification where
  user : Nat
  ntype : NType
  booking : Option Nat
  room : Option Nat
deriving DecidableEq, Repr

/-- The persistent store. -/
structure State where
  rooms : List Room
  bookings : List Booking
  groups : List RecurrenceGroup
  notifications : List Notification
  nextBookingId : Nat
  nextGroupId : Nat
deriving DecidableEq, Repr

/-- JS `Date#getDay` at minute granularity: epoch day 0 is a Thursday. -/
def weekday (t : Nat) : Nat := (t / 1440 + 4) % 7

/-- `(getHours, getMinutes)` of an instant. -/
def timeOfDay (t : Nat) : Nat × Nat := ((t % 1440) / 60, t % 60)

/-- `combineDateAndTime` (part_004 lines 51-56): keep the calendar date of
`d`, set hours and minutes from the pair. -/
def combineDateAndTime (d : Nat) (hm : Nat × Nat) : Nat :=
  (d / 1440) * 1440 + hm.1 * 60 + hm.2

/-- The four-branch `$or` of `checkOverlap` (part_004 lines 9-18), with
`bs`/`be` the stored booking's `startTime`/`endTime` and `a`/`e` the
candidate interval. -/
def overlapCases (bs be a e : Nat) : Bool :=
  (decide (bs ≤ a) && decide (be > a)) ||
  (decide (bs < e) && decide (be ≥ e)) ||
  (decide (bs ≥ a) && decide (be ≤ e)) ||
  (decide (bs ≤ a) && decide (be ≥ e))

/-- `checkOverlap` (part_004 lines 5-28): is there a confirmed booking on
the room, other than `excl`, matching the four-branch overlap query? -/
def checkOverlap (s : State) (roomId a e : Nat) (excl : Option Nat) : Bool :=
  s.bookings.any fun b =>
    decide (b.room = roomId) && decide (b.status = BStatus.confirmed) &&
    (match excl with
     | none => true
     | some i => decide (b.id ≠ i)) &&
    overlapCases b.startTime b.endTime a e

/-- The `while (current.getDay() !== dayOfWeek)` loop of
`generateRecurringDates` (part_004 lines 37-39), advancing one day at a
time; fuel 7 dominates the loop count whenever `dayOfWeek < 7`. -/
def advanceToWeekday : Nat → Nat → Nat → Nat
  | 0, t, _ => t
  | n + 1, t, w => if weekday t = w then t else advanceToWeekday n (t + 1440) w

/-- The `while (current <= end)` loop of `generateRecurringDates`
(part_004 lines 42-45), stepping a week at a time; fuel `e + 1` dominates
the loop count because the cursor grows by 10080 each iteration. -/
def collectWeekly : Nat → Nat → Nat → List Nat
  | 0, _, _ => []
  | fuel + 1, e, t => if t ≤ e then t :: collectWeekly fuel e (t + 10080) else []

/-- `generateRecurringDates` (part_004 lines 31-48). -/
def generateRecurringDates (startDate endDate dayOfWeek : Nat) : List Nat :=
  collectWeekly (endDate + 1) endDate (advanceToWeekday 7 startDate dayOfWeek)

/-- Inner loop of `checkOverlapWithRecurring` (part_004 lines 74-90): does
the candidate interval clash with one of the group's expanded instances? -/
def groupConflicts (g : RecurrenceGroup) (a e : Nat) : Bool :=
  (generateRecurringDates g.startDate g.endDate g.dayOfWeek).any fun d =>
    decide (a < combineDateAndTime d g.baseEndTime) &&
    decide (e > combineDateAndTime d g.baseStartTime)

/-- `checkOverlapWithRecurring` (part_004 lines 59-93): the regular check,
then every stored group whose date range meets the candidate interval. -/
def checkOverlapWithRecurring (s : State) (roomId a e : Nat) (excl : Option Nat) : Bool :=
  checkOverlap s roomId a e excl ||
  (s.groups.filter fun g =>
      decide (g.room = roomId) && decide (g.startDate ≤ e) && decide (g.endDate ≥ a)).any
    fun g => groupConflicts g a e

def overrideReasonSingle : String := "Admin override - conflicting booking created"

def overrideReasonRecurring : String := "Admin override - recurring booking created"

/-- The stamp applied to a booking cancelled on someone's behalf
(bookingController.js lines 286-290, 199-203, 445-448; roomController.js
lines 114-118). -/
def cancelStamp (b : Booking) (actor now : Nat) (reason : String) : Booking :=
  { b with
    status := BStatus.cancelled
    cancelledBy := some actor
    cancelledAt := some now
    cancellationReason := some reason }

/-- Does a booking match the admin-override cancellation query
(bookingController.js lines 275-284 and 188-196): same room, still
confirmed, and in one of the four overlap cases against the candidate? -/
def overrideTarget (roomId a e : Nat) (b : Booking) : Bool :=
  decide (b.room = roomId) && decide (b.status = BStatus.confirmed) &&
  overlapCases b.startTime b.endTime a e

/-- The admin-override procedure (bookingController.js lines 275-302 and
188-215): cancel every confirmed booking on the room matching the overlap
query, stamping actor, instant and reason, and notify each organizer. -/
def overrideConflicts (s : State) (actor now roomId a e : Nat) (reason : String) : State :=
  { s with
    bookings := s.bookings.map fun b =>
      if overrideTarget roomId a e b then cancelStamp b actor now reason else b
    notifications := s.notifications ++
      (s.bookings.filter (overrideTarget roomId a e)).map fun b =>
        ⟨b.bookedBy, NType.adminOverride, some b.id, some b.room⟩ }

/-- `Booking.create`.  The Booking schema is concatenated into
`src/routes/roomRoutes.js` (after the module separator): its `pre('save')`
hook rejects `endTime <= startTime` with an error — and that hook runs on
`create`/`save` — while `status` defaults to `'confirmed'`.  So creation
fails (`none`) on an invalid interval and otherwise persists a confirmed
booking under a fresh id. -/
def bookingCreate (s : State) (uid roomId a e : Nat) (att : List Nat)
    (grp : Option Nat) : Option (State × Nat) :=
  if a < e then
    some
      ({ s with
          bookings := s.bookings ++
            [⟨s.nextBookingId, roomId, uid, att, a, e, BStatus.confirmed,
              none, none, none, grp⟩]
          nextBookingId := s.nextBookingId + 1 },
        s.nextBookingId)
  else none

inductive Result where
  | created (bid : Nat)
  | recurringConflict (dates : List Nat)
  | conflict
  | badRequest
  | notFound
  | forbidden
  | invalidState
  | validationFailed
  | referenceError
  | ok
  | deletedRoom (cancelledCount : Nat)
deriving DecidableEq, Repr

/-- A create request body (`POST /api/bookings`). -/
structure CreateRequest where
  room : Nat
  title : String
  startTime : Nat
  endTime : Nat
  attendees : List Nat
  isRecurring : Bool
  recurrenceEndDate : Option Nat
deriving DecidableEq, Repr

/-- `bookingValidation` (bookingRoutes.js lines 17-41): title present,
attendees a non-empty array of at most 50, end strictly after start.  Runs
before the controller. -/
def bookingValidation (r : CreateRequest) : Bool :=
  decide (r.title ≠ "") && decide (1 ≤ r.attendees.length) &&
  decide (r.attendees.length ≤ 50) && decide (r.startTime < r.endTime)

/-- The per-occurrence creation loop of a recurring booking
(bookingController.js lines 181-229).  For an admin each occurrence first
runs the override procedure (lines 187-216), then `Booking.create` persists
the occurrence; a creation failure (invalid interval, rejected by the
Booking model) throws and aborts the remainder of the request, which the
surrounding `catch` turns into an error response.  Returns the final state,
the number of occurrences created, and whether the loop finished. -/
def createOccurrences (admin : Bool) (uid now roomId : Nat) (att : List Nat)
    (gid : Nat) (bs be : Nat × Nat) : List Nat → State → Nat → State × Nat × Bool
  | [], st, n => (st, n, true)
  | d :: ds, st, n =>
    let a := combineDateAndTime d bs
    let e := combineDateAndTime d be
    let st1 := if admin then overrideConflicts st uid now roomId a e overrideReasonRecurring else st
    match bookingCreate st1 uid roomId a e att (some gid) with
    | some (st2, _) => createOccurrences admin uid now roomId att gid bs be ds st2 (n + 1)
    | none => (st1, n, false)

/-- The recurring branch of `createBooking` (bookingController.js lines
133-266): persist the RecurrenceGroup first, expand the dates, pre-validate
every occurrence with the recurring-aware scanner for a non-admin, then run
the creation loop.  On the success path the response construction at line
263 reads `failedDates.length` where `failedDates` is never defined, so the
request ends in a `ReferenceError` after everything was persisted. -/
def createRecurring (s : State) (admin : Bool) (uid now : Nat) (r : CreateRequest)
    (rEnd : Nat) : State × Result :=
  let w := weekday r.startTime
  let bs := timeOfDay r.startTime
  let be := timeOfDay r.endTime
  let g : RecurrenceGroup :=
    ⟨s.nextGroupId, uid, r.room, w, r.startTime, rEnd, bs, be⟩
  let s1 := { s with groups := s.groups ++ [g], nextGroupId := s.nextGroupId + 1 }
  let dates := generateRecurringDates r.startTime rEnd w
  let conflictDates :=
    if admin then [] else
      dates.filter fun d =>
        checkOverlapWithRecurring s1 r.room (combineDateAndTime d bs)
          (combineDateAndTime d be) none
  if conflictDates ≠ [] then (s1, Result.recurringConflict conflictDates)
  else
    match createOccurrences admin uid now r.room r.attendees g.id bs be dates s1 0 with
    | (st, _, true) =>
      ({ st with notifications := st.notifications ++
          [⟨uid, NType.bookingCreated, none, some r.room⟩] },
        Result.referenceError)
    | (st, _, false) => (st, Result.validationFailed)

/-- The single-booking tail of `createBooking` (bookingController.js lines
268-359): decide whether this is an admin override (line 270), if so run the
override procedure, then persist the booking and notify the organizer. -/
def createSingle (s : State) (admin : Bool) (uid now : Nat) (r : CreateRequest) :
    State × Result :=
  let hasOverlap := admin && checkOverlapWithRecurring s r.room r.startTime r.endTime none
  let s1 := if hasOverlap then
      overrideConflicts s uid now r.room r.startTime r.endTime overrideReasonSingle
    else s
  match bookingCreate s1 uid r.room r.startTime r.endTime r.attendees none with
  | some (s2, bid) =>
    ({ s2 with notifications := s2.notifications ++
        [⟨uid, if hasOverlap then NType.adminOverride else NType.bookingCreated,
          some bid, some r.room⟩] },
      Result.created bid)
  | none => (s1, Result.validationFailed)

/-- `createBooking` (bookingController.js lines 88-363), after route
validation: attendee checks, room lookup, capacity check, the non-admin
pre-scan (line 122), then either the recurring branch or the single-booking
branch with its admin override (lines 269-304). -/
def createBooking (s : State) (admin : Bool) (uid now : Nat) (r : CreateRequest) :
    State × Result :=
  if r.attendees.isEmpty then (s, Result.badRequest)
  else
    match s.rooms.find? (fun rm => decide (rm.id = r.room)) with
    | none => (s, Result.notFound)
    | some rm =>
      if rm.capacity < r.attendees.length then (s, Result.badRequest)
      else if !admin && checkOverlapWithRecurring s r.room r.startTime r.endTime none then
        (s, Result.conflict)
      else
        match r.isRecurring, r.recurrenceEndDate with
        | true, some rEnd => createRecurring s admin uid now r rEnd
        | _, _ => createSingle s admin uid now r

/-- `POST /api/bookings`: the validation middleware chain, then the
controller (bookingRoutes.js line 48). -/
def handleCreateBooking (s : State) (admin : Bool) (uid now : Nat)
    (r : CreateRequest) : State × Result :=
  if bookingValidation r then createBooking s admin uid now r
  else (s, Result.validationFailed)

/-- `updateBooking` (bookingController.js lines 368-421).  The handler
reads `startTime`, `endTime`, `room` from the body to gate the overlap
check (line 390: plain `checkOverlap` with the booking's own id excluded,
candidate values completed from the found booking), then applies the whole
`req.body` via `findByIdAndUpdate` (lines 404-411).  The embedding carries
the body fields the scheduling core reads — `room`, `startTime`,
`endTime`, `status`; the other updatable fields (title, description,
attendees, cancellation metadata) interact with nothing modelled here.  A
body carrying only `status` skips the overlap check entirely, and no
end-after-start check runs on this path: the Booking schema enforces that
only in its `pre('save')` hook (src/routes/roomRoutes.js), which
`findByIdAndUpdate` does not trigger — `runValidators` runs path
validators only. -/
def updateBooking (s : State) (admin : Bool) (uid bid : Nat)
    (newRoom newStart newEnd : Option Nat) (newStatus : Option BStatus) :
    State × Result :=
  match s.bookings.find? (fun b => decide (b.id = bid)) with
  | none => (s, Result.notFound)
  | some b =>
    if !admin && uid ≠ b.bookedBy then (s, Result.forbidden)
    else if (newStart.isSome || newEnd.isSome || newRoom.isSome) &&
        checkOverlap s (newRoom.getD b.room) (newStart.getD b.startTime)
          (newEnd.getD b.endTime) (some bid) then (s, Result.conflict)
    else
      ({ s with bookings := s.bookings.map fun x =>
          if x.id = bid then
            { x with
              room := newRoom.getD x.room
              startTime := newStart.getD x.startTime
              endTime := newEnd.getD x.endTime
              status := newStatus.getD x.status }
          else x },
        Result.ok)

/-- `cancelBooking` (bookingController.js lines 426-499): organizer or
admin only; stamps the cancellation (the save bypasses validation, so it
always succeeds once authorized) and notifies the organizer. -/
def cancelBooking (s : State) (admin : Bool) (uid now bid : Nat) (reason : String) :
    State × Result :=
  match s.bookings.find? (fun b => decide (b.id = bid)) with
  | none => (s, Result.notFound)
  | some b =>
    if !admin && uid ≠ b.bookedBy then (s, Result.forbidden)
    else
      ({ s with
          bookings := s.bookings.map fun x =>
            if x.id = bid then cancelStamp x uid now reason else x
          notifications := s.notifications ++
            [⟨b.bookedBy, if admin then NType.adminOverride else NType.bookingCancelled,
              some b.id, some b.room⟩] },
        Result.ok)

/-- `deleteBooking` (bookingController.js lines 535-567); the route gates it
behind `authorize('admin')` (bookingRoutes.js line 56).  Deletion is allowed
only for past or cancelled bookings. -/
def deleteBooking (s : State) (admin : Bool) (now bid : Nat) : State × Result :=
  if !admin then (s, Result.forbidden)
  else
    match s.bookings.find? (fun b => decide (b.id = bid)) with
    | none => (s, Result.notFound)
    | some b =>
      if b.endTime < now || b.status = BStatus.cancelled then
        ({ s with bookings := s.bookings.filter fun x => decide (x.id ≠ bid) }, Result.ok)
      else (s, Result.invalidState)

/-- Is a booking one of the "future bookings" cancelled by `deleteRoom`
(roomController.js lines 101-109): confirmed, on the room, starting at or
after now? -/
def roomDeleteTarget (roomId now : Nat) (b : Booking) : Bool :=
  decide (b.room = roomId) && decide (b.status = BStatus.confirmed) &&
  decide (now ≤ b.startTime)

/-- The notifications emitted for one booking cancelled by `deleteRoom`
(roomController.js lines 122-141): one to the organizer, one per attendee. -/
def roomDeleteNotices (b : Booking) : List Notification :=
  ⟨b.bookedBy, NType.roomDeleted, some b.id, none⟩ ::
    b.attendees.map fun u => ⟨u, NType.roomDeleted, some b.id, none⟩

/-- `deleteRoom` (roomController.js lines 89-164): cancel every confirmed
future booking on the room with a room-deletion reason, notify organizer
and attendees of each, then remove the room record. -/
def deleteRoom (s : State) (uid now roomId : Nat) : State × Result :=
  match s.rooms.find? (fun rm => decide (rm.id = roomId)) with
  | none => (s, Result.notFound)
  | some rm =>
    let reason := "Room \"" ++ rm.name ++ "\" has been deleted by administrator"
    let futures := s.bookings.filter (roomDeleteTarget roomId now)
    ({ s with
        bookings := s.bookings.map fun b =>
          if roomDeleteTarget roomId now b then cancelStamp b uid now reason else b
        rooms := s.rooms.filter fun x => decide (x.id ≠ roomId)
        notifications := s.notifications ++
          futures.foldr (fun b acc => roomDeleteNotices b ++ acc) [] },
      Result.deletedRoom futures.length)

/-- One request handled to completion (the sequential, single-writer view
of the system). -/
inductive Op where
  | create (admin : Bool) (uid now : Nat) (r : CreateRequest)
  | update (admin : Bool) (uid bid : Nat) (newRoom newStart newEnd : Option Nat)
      (newStatus : Option BStatus)
  | cancel (admin : Bool) (uid now bid : Nat) (reason : String)
  | delete (admin : Bool) (now bid : Nat)
  | removeRoom (uid now roomId : Nat)

/-- The state reached after one request. -/
def step (s : State) : Op → State
  | Op.create admin uid now r => (handleCreateBooking s admin uid now r).1
  | Op.update admin uid bid nr na ne nst => (updateBooking s admin uid bid nr na ne nst).1
  | Op.cancel admin uid now bid reason => (cancelBooking s admin uid now bid reason).1
  | Op.delete admin now bid => (deleteBooking s admin now bid).1
  | Op.removeRoom uid now roomId => (deleteRoom s uid now roomId).1

/-- An operation whose update body (if it is an update) does not set the
`status` field.  The restriction is necessary: a body of just
`status: confirmed` bypasses the line-390 overlap check and can re-confirm
a cancelled overlapping booking, see
`update_setting_status_breaks_invariant`. -/
def Op.noStatusWrite : Op → Prop
  | Op.update _ _ _ _ _ _ newStatus => newStatus = none
  | _ => True

/-- Two concurrent non-admin single creates interleaved so that both
conflict scans (`await checkOverlapWithRecurring`, an I/O suspension point
under the request-parallel model) complete before either write
(`Booking.create`) runs — the schedule left open by bookingController.js
lines 122-130 and 307-315. -/
def interleavedNonAdminCreates (s : State) (u1 u2 : Nat) (r1 r2 : CreateRequest) : State :=
  let c1 := checkOverlapWithRecurring s r1.room r1.startTime r1.endTime none
  let c2 := checkOverlapWithRecurring s r2.room r2.startTime r2.endTime none
  let s1 := if c1 then s
    else ((bookingCreate s u1 r1.room r1.startTime r1.endTime r1.attendees none).getD (s, 0)).1
  if c2 then s1
  else ((bookingCreate s1 u2 r2.room r2.startTime r2.endTime r2.attendees none).getD (s1, 0)).1

/-- The core safety predicate on a pair of persisted bookings: if both are
confirmed and on the same resource, their intervals do not overlap (in the
spec's two-inequality sense). -/
def bookingsDisjoint (b1 b2 : Booking) : Prop :=
  b1.status = BStatus.confirmed → b2.status = BStatus.confirmed → b1.room = b2.room →
    ¬(b1.startTime < b2.endTime ∧ b2.startTime < b1.endTime)

/-- The core safety invariant: confirmed bookings are pairwise
non-overlapping per resource. -/
def Inv (s : State) : Prop := s.bookings.Pairwise bookingsDisjoint

/-- Structural well-formedness maintained by the store: ids are distinct
and below the id counter.  (Interval validity is NOT part of this: the
Booking schema checks `endTime > startTime` only in its pre-save hook,
which `findByIdAndUpdate` bypasses, so an update can store an inverted
interval.) -/
def WF (s : State) : Prop :=
  s.bookings.Pairwise (fun x y => x.id ≠ y.id) ∧
  (∀ b ∈ s.bookings, b.id < s.nextBookingId)

/-! ### Concrete stores and requests used for evaluations and witnesses.
Times: 540 = day 0 (a Thursday, weekday 4) at 09:00; 600 = 10:00;
10620/10680 = the same clock times one week later. -/

def roomA : Room := ⟨1, "Alpha", 10⟩

def roomB : Room := ⟨2, "Beta", 8⟩

def rqA : CreateRequest := ⟨1, "standup", 540, 600, [4], false, none⟩

def rqRec : CreateRequest := ⟨1, "weekly sync", 540, 600, [4], true, some 10620⟩

def rqBig : CreateRequest := ⟨1, "all hands", 540, 600, List.replicate 51 3, false, none⟩

def sEmpty : State := ⟨[roomA], [], [], [], 1, 1⟩

def bkRace1 : Booking := ⟨1, 1, 5, [4], 540, 600, BStatus.confirmed, none, none, none, none⟩

def bkRace2 : Booking := ⟨2, 1, 6, [4], 540, 600, BStatus.confirmed, none, none, none, none⟩

def sC4 : State :=
  ⟨[roomA, roomB],
    [⟨1, 1, 7, [7], 600, 660, BStatus.confirmed, none, none, none, none⟩,
     ⟨2, 1, 8, [8], 840, 900, BStatus.confirmed, none, none, none, none⟩,
     ⟨3, 2, 7, [7], 600, 660, BStatus.confirmed, none, none, none, none⟩],
    [], [], 4, 1⟩

def sC5 : State :=
  ⟨[roomA], [⟨1, 1, 7, [7], 540, 600, BStatus.confirmed, none, none, none, none⟩],
    [], [], 2, 1⟩

def sC6 : State :=
  ⟨[roomA, roomB],
    [⟨1, 2, 5, [5], 100000, 100060, BStatus.confirmed, none, none, none, none⟩],
    [⟨1, 9, 1, 4, 0, 20000, (9, 0), (10, 0)⟩], [], 2, 2⟩

def sW8 : State :=
  ⟨[roomA], [⟨1, 1, 5, [5], 540, 600, BStatus.confirmed, none, none, none, none⟩],
    [], [], 2, 1⟩

def bkW8 : Booking := ⟨1, 1, 5, [5], 540, 600, BStatus.confirmed, none, none, none, none⟩

/-- A store reachable after an admin override: booking 2 was cancelled in
favour of the overlapping confirmed booking 1. -/
def sRev : State :=
  ⟨[roomA],
    [⟨1, 1, 7, [7], 540, 600, BStatus.confirmed, none, none, none, none⟩,
     ⟨2, 1, 8, [8], 540, 600, BStatus.cancelled, some 9, some 100,
       some overrideReasonSingle, none⟩],
    [], [], 3, 1⟩

def sW9 : State :=
  ⟨[roomA, roomB],
    [⟨1, 1, 5, [6, 7], 2000, 2060, BStatus.confirmed, none, none, none, none⟩,
     ⟨2, 1, 5, [6], 100, 160, BStatus.confirmed, none, none, none, none⟩,
     ⟨3, 2, 5, [6], 2000, 2060, BStatus.confirmed, none, none, none, none⟩],
    [], [], 4, 1⟩

/-! ### Helper lemmas: the overlap predicate -/

theorem overlapCases_of_overlap {bs be a e : Nat} (h1 : a < be) (h2 : bs < e) :
    overlapCases bs be a e = true := by
  simp only [overlapCases, Bool.or_eq_true, Bool.and_eq_true, decide_eq_true_eq]
  omega

theorem overlapCases_iff_overlap {bs be a e : Nat} (ha : a < e) (hb : bs < be) :
    overlapCases bs be a e = true ↔ (a < be ∧ bs < e) := by
  simp only [overlapCases, Bool.or_eq_true, Bool.and_eq_true, decide_eq_true_eq]
  omega

theorem not_overlap_of_overlapCases_false {bs be a e : Nat}
    (h : overlapCases bs be a e = false) : ¬(a < be ∧ bs < e) := by
  intro hov
  have := overlapCases_of_overlap hov.1 hov.2
  simp [this] at h

theorem checkOverlap_false_none {s : State} {roomId a e : Nat}
    (h : checkOverlap s roomId a e none = false) :
    ∀ b ∈ s.bookings, b.room = roomId → b.status = BStatus.confirmed →
      overlapCases b.startTime b.endTime a e = false := by
  intro b hb hroom hst
  by_contra hc
  have hc' : overlapCases b.startTime b.endTime a e = true := by
    cases hov : overlapCases b.startTime b.endTime a e
    · exact absurd hov hc
    · rfl
  have : checkOverlap s roomId a e none = true := by
    simp only [checkOverlap, List.any_eq_true]
    exact ⟨b, hb, by simp [hroom, hst, hc']⟩
  simp [this] at h

theorem checkOverlap_false_some {s : State} {roomId a e i : Nat}
    (h : checkOverlap s roomId a e (some i) = false) :
    ∀ b ∈ s.bookings, b.room = roomId → b.status = BStatus.confirmed → b.id ≠ i →
      overlapCases b.startTime b.endTime a e = false := by
  intro b hb hroom hst hid
  by_contra hc
  have hc' : overlapCases b.startTime b.endTime a e = true := by
    cases hov : overlapCases b.startTime b.endTime a e
    · exact absurd hov hc
    · rfl
  have : checkOverlap s roomId a e (some i) = true := by
    simp only [checkOverlap, List.any_eq_true]
    exact ⟨b, hb, by simp [hroom, hst, hid, hc']⟩
  simp [this] at h

theorem checkOverlap_false_of_scanner_false {s : State} {roomId a e : Nat}
    {excl : Option Nat} (h : checkOverlapWithRecurring s roomId a e excl = false) :
    checkOverlap s roomId a e excl = false := by
  simp only [checkOverlapWithRecurring, Bool.or_eq_false_iff] at h
  exact h.1

/-! ### Helper lemmas: weekday arithmetic and the recurrence expander -/

theorem weekday_lt (t : Nat) : weekday t < 7 := Nat.mod_lt _ (by omega)

theorem weekday_add_mul (t k : Nat) : weekday (t + k * 1440) = (weekday t + k) % 7 := by
  unfold weekday
  rw [Nat.add_mul_div_right _ _ (by omega : 0 < 1440)]
  omega

theorem weekday_add_day (t : Nat) : weekday (t + 1440) = (weekday t + 1) % 7 := by
  have := weekday_add_mul t 1
  simpa using this

theorem advanceToWeekday_spec :
    ∀ (fuel t w : Nat), w < 7 → (w + 7 - weekday t) % 7 < fuel →
      advanceToWeekday fuel t w = t + ((w + 7 - weekday t) % 7) * 1440 := by
  intro fuel
  induction fuel with
  | zero => intro t w _ h; omega
  | succ n ih =>
    intro t w hw hfuel
    by_cases heq : weekday t = w
    · have h0 : (w + 7 - weekday t) % 7 = 0 := by rw [heq]; omega
      have hstep : advanceToWeekday (n + 1) t w = t := by
        simp [advanceToWeekday, heq]
      rw [hstep, h0]
      omega
    · have hr : weekday t < 7 := weekday_lt t
      have hd1 : 1 ≤ (w + 7 - weekday t) % 7 := by omega
      have hnext : weekday (t + 1440) = (weekday t + 1) % 7 := weekday_add_day t
      have hdrop : (w + 7 - weekday (t + 1440)) % 7 = (w + 7 - weekday t) % 7 - 1 := by
        rw [hnext]; omega
      have hlt : (w + 7 - weekday (t + 1440)) % 7 < n := by omega
      have hstep : advanceToWeekday (n + 1) t w = advanceToWeekday n (t + 1440) w := by
        simp [advanceToWeekday, heq]
      rw [hstep, ih (t + 1440) w hw hlt, hdrop]
      omega

theorem advanceToWeekday7_eq {t w : Nat} (hw : w < 7) :
    advanceToWeekday 7 t w = t + ((w + 7 - weekday t) % 7) * 1440 :=
  advanceToWeekday_spec 7 t w hw (Nat.mod_lt _ (by omega))

theorem advanceToWeekday7_weekday {t w : Nat} (hw : w < 7) :
    weekday (advanceToWeekday 7 t w) = w := by
  rw [advanceToWeekday7_eq hw, weekday_add_mul]
  have := weekday_lt t
  omega

theorem advanceToWeekday7_min {t w : Nat} :
    ∀ j, j < (w + 7 - weekday t) % 7 → weekday (t + j * 1440) ≠ w := by
  intro j hj
  rw [weekday_add_mul]
  have := weekday_lt t
  omega

theorem collectWeekly_mem :
    ∀ (fuel e t x : Nat), x ∈ collectWeekly fuel e t →
      t ≤ x ∧ x ≤ e ∧ ∃ k, x = t + k * 10080 := by
  intro fuel
  induction fuel with
  | zero => intro e t x hx; simp [collectWeekly] at hx
  | succ n ih =>
    intro e t x hx
    simp only [collectWeekly] at hx
    split at hx
    · rcases List.mem_cons.mp hx with h | h
      · subst h; exact ⟨le_refl _, by assumption, 0, by omega⟩
      · obtain ⟨h1, h2, k, hk⟩ := ih e (t + 10080) x h
        exact ⟨by omega, h2, k + 1, by omega⟩
    · simp at hx

theorem collectWeekly_eq_nil_iff {fuel e t : Nat} (hf : 0 < fuel) :
    collectWeekly fuel e t = [] ↔ e < t := by
  cases fuel with
  | zero => omega
  | succ n =>
    simp only [collectWeekly]
    split
    · simp; omega
    · simp; omega

theorem collectWeekly_head? :
    ∀ {fuel e t : Nat}, 0 < fuel → t ≤ e → (collectWeekly fuel e t).head? = some t := by
  intro fuel e t hf ht
  cases fuel with
  | zero => omega
  | succ n => simp [collectWeekly, ht]

theorem collectWeekly_chain :
    ∀ (fuel e t : Nat), List.Chain' (fun x y => y = x + 10080) (collectWeekly fuel e t) := by
  intro fuel
  induction fuel with
  | zero => intro e t; simp [collectWeekly]
  | succ n ih =>
    intro e t
    simp only [collectWeekly]
    split
    · refine List.chain'_cons'.mpr ⟨?_, ih e (t + 10080)⟩
      intro y hy
      cases n with
      | zero => simp [collectWeekly] at hy
      | succ m =>
        simp only [collectWeekly] at hy
        split at hy
        · simp at hy; omega
        · simp at hy
    · exact List.chain'_nil

theorem generateRecurringDates_mem {a e w x : Nat} (hw : w < 7)
    (hx : x ∈ generateRecurringDates a e w) :
    a ≤ x ∧ x ≤ e ∧ weekday x = w ∧ x % 1440 = a % 1440 := by
  unfold generateRecurringDates at hx
  obtain ⟨h1, h2, k, hk⟩ := collectWeekly_mem _ _ _ _ hx
  rw [advanceToWeekday7_eq hw] at h1 hk
  set d := (w + 7 - weekday a) % 7 with hd
  have hx' : x = a + (d + 7 * k) * 1440 := by omega
  constructor
  · omega
  refine ⟨h2, ?_, ?_⟩
  · rw [hx', weekday_add_mul]
    have h7 : weekday a < 7 := weekday_lt a
    have : (weekday a + (d + 7 * k)) % 7 = (weekday a + d) % 7 := by omega
    rw [this]
    omega
  · rw [hx', Nat.add_mul_mod_self_right]

/-! ### Helper lemmas: invariant machinery -/

theorem pairwise_disjoint_map {l : List Booking} {f : Booking → Booking}
    (hf : ∀ b, (f b).room = b.room ∧ (f b).startTime = b.startTime ∧
      (f b).endTime = b.endTime ∧
      ((f b).status = BStatus.confirmed → b.status = BStatus.confirmed))
    (h : l.Pairwise bookingsDisjoint) : (l.map f).Pairwise bookingsDisjoint := by
  rw [List.pairwise_map]
  refine h.imp ?_
  intro x y hxy hc1 hc2 hroom
  obtain ⟨hr1, hs1, he1, hcf1⟩ := hf x
  obtain ⟨hr2, hs2, he2, hcf2⟩ := hf y
  rw [hs1, he1, hs2, he2]
  exact hxy (hcf1 hc1) (hcf2 hc2) (by rw [hr1, hr2] at hroom; exact hroom)

theorem pairwise_ne_map {l : List Booking} {f : Booking → Booking}
    (hid : ∀ b, (f b).id = b.id)
    (h : l.Pairwise fun x y => x.id ≠ y.id) :
    (l.map f).Pairwise fun x y => x.id ≠ y.id := by
  rw [List.pairwise_map]
  refine h.imp ?_
  intro x y hxy
  rw [hid x, hid y]
  exact hxy

theorem stampIf_fields (p : Booking → Bool) (actor now : Nat) (reason : String) (b : Booking) :
    ((if p b then cancelStamp b actor now reason else b).id = b.id) ∧
    ((if p b then cancelStamp b actor now reason else b).room = b.room) ∧
    ((if p b then cancelStamp b actor now reason else b).startTime = b.startTime) ∧
    ((if p b then cancelStamp b actor now reason else b).endTime = b.endTime) ∧
    (((if p b then cancelStamp b actor now reason else b).status = BStatus.confirmed) →
      b.status = BStatus.confirmed) := by
  by_cases hp : p b
  · simp [hp, cancelStamp]
  · simp [hp]

theorem inv_append_single {l : List Booking} {nb : Booking}
    (h : l.Pairwise bookingsDisjoint)
    (hnew : ∀ b ∈ l, b.status = BStatus.confirmed → b.room = nb.room →
      ¬(b.startTime < nb.endTime ∧ nb.startTime < b.endTime)) :
    (l ++ [nb]).Pairwise bookingsDisjoint := by
  rw [List.pairwise_append]
  refine ⟨h, List.pairwise_singleton _ _, ?_⟩
  intro a ha b hb
  rw [List.mem_singleton] at hb
  subst hb
  intro hc1 _ hroom
  exact hnew a ha hc1 hroom

/-- After the override procedure, no remaining confirmed booking on the room
matches the overlap query for the candidate interval. -/
theorem overrideConflicts_post {s : State} {actor now roomId a e : Nat} {reason : String} :
    ∀ b ∈ (overrideConflicts s actor now roomId a e reason).bookings,
      b.status = BStatus.confirmed → b.room = roomId →
        overlapCases b.startTime b.endTime a e = false := by
  intro b hb hconf hroom
  simp only [overrideConflicts, List.mem_map] at hb
  obtain ⟨x, hx, hfx⟩ := hb
  by_cases ht : overrideTarget roomId a e x = true
  · rw [if_pos ht] at hfx
    rw [← hfx] at hconf
    simp [cancelStamp] at hconf
  · rw [if_neg ht] at hfx
    subst hfx
    simp only [overrideTarget, Bool.and_eq_true, decide_eq_true_eq] at ht
    cases hc : overlapCases x.startTime x.endTime a e
    · rfl
    · exact absurd ⟨⟨hroom, hconf⟩, hc⟩ ht

theorem overrideConflicts_bookings (s : State) (actor now roomId a e : Nat) (reason : String) :
    (overrideConflicts s actor now roomId a e reason).bookings =
      s.bookings.map fun b =>
        if overrideTarget roomId a e b then cancelStamp b actor now reason else b := rfl

theorem overrideConflicts_inv {s : State} {actor now roomId a e : Nat} {reason : String}
    (hInv : Inv s) (hWF : WF s) :
    Inv (overrideConflicts s actor now roomId a e reason) ∧
    WF (overrideConflicts s actor now roomId a e reason) := by
  obtain ⟨hnd, hlt⟩ := hWF
  refine ⟨?_, ?_, ?_⟩
  · exact pairwise_disjoint_map
      (fun b => by
        obtain ⟨_, h2, h3, h4, h5⟩ := stampIf_fields (overrideTarget roomId a e) actor now reason b
        exact ⟨h2, h3, h4, h5⟩) hInv
  · exact pairwise_ne_map
      (fun b => (stampIf_fields (overrideTarget roomId a e) actor now reason b).1) hnd
  · intro b hb
    obtain ⟨x, hx, hfx⟩ := List.mem_map.mp hb
    have := (stampIf_fields (overrideTarget roomId a e) actor now reason x).1
    rw [hfx] at this
    rw [this]
    exact hlt x hx

theorem bookingCreate_some {s : State} {uid roomId a e : Nat} {att : List Nat}
    {grp : Option Nat} {st2 : State} {bid : Nat}
    (hc : bookingCreate s uid roomId a e att grp = some (st2, bid)) :
    a < e ∧
    st2.bookings = s.bookings ++
      [⟨s.nextBookingId, roomId, uid, att, a, e, BStatus.confirmed, none, none, none, grp⟩] ∧
    st2.nextBookingId = s.nextBookingId + 1 := by
  unfold bookingCreate at hc
  split at hc
  · simp only [Option.some.injEq, Prod.mk.injEq] at hc
    exact ⟨by assumption, by rw [← hc.1], by rw [← hc.1]⟩
  · simp at hc

/-- Persisting a booking whose interval clashes with no remaining confirmed
booking on its room (in the four-case sense) keeps the invariant. -/
theorem bookingCreate_inv {s : State} {uid roomId a e : Nat} {att : List Nat}
    {grp : Option Nat} {st2 : State} {bid : Nat}
    (hc : bookingCreate s uid roomId a e att grp = some (st2, bid))
    (hInv : Inv s) (hWF : WF s)
    (hsafe : ∀ b ∈ s.bookings, b.status = BStatus.confirmed → b.room = roomId →
      overlapCases b.startTime b.endTime a e = false) :
    Inv st2 ∧ WF st2 := by
  obtain ⟨hae, hbk, hnext⟩ := bookingCreate_some hc
  obtain ⟨hnd, hlt⟩ := hWF
  refine ⟨?_, ?_, ?_⟩
  · rw [Inv, hbk]
    refine inv_append_single hInv ?_
    intro b hb hconf hroom
    have := not_overlap_of_overlapCases_false (hsafe b hb hconf hroom)
    simp only [not_and] at this ⊢
    intro h1 h2
    exact this h2 h1
  · rw [hbk, List.pairwise_append]
    refine ⟨hnd, List.pairwise_singleton _ _, ?_⟩
    intro x hx y hy
    rw [List.mem_singleton] at hy
    subst hy
    have := hlt x hx
    simp only []
    omega
  · rw [hbk, hnext]
    intro b hb
    rcases List.mem_append.mp hb with h | h
    · have := hlt b h; omega
    · rw [List.mem_singleton] at h; subst h; simp

/-- A freshly persisted RecurrenceGroup shadows its own occurrences: once a
group whose weekday and base start time come from its own `startDate` is in
the store, the recurring-aware scanner reports a conflict for every one of
that group's expanded (valid) occurrence intervals. -/
theorem recurring_self_conflict {s1 : State} {g : RecurrenceGroup}
    (hg : g ∈ s1.groups)
    (hwd : g.dayOfWeek = weekday g.startDate)
    (hbs : g.baseStartTime = timeOfDay g.startDate)
    {d : Nat} (hd : d ∈ generateRecurringDates g.startDate g.endDate g.dayOfWeek)
    (hlt : combineDateAndTime d g.baseStartTime < combineDateAndTime d g.baseEndTime) :
    checkOverlapWithRecurring s1 g.room (combineDateAndTime d g.baseStartTime)
      (combineDateAndTime d g.baseEndTime) none = true := by
  have hw7 : g.dayOfWeek < 7 := by rw [hwd]; exact weekday_lt _
  obtain ⟨had, hde, _, hmod⟩ := generateRecurringDates_mem hw7 hd
  have ha' : combineDateAndTime d g.baseStartTime = d := by
    rw [hbs]
    unfold combineDateAndTime timeOfDay
    have e1 : 1440 * (d / 1440) + d % 1440 = d := Nat.div_add_mod d 1440
    have e3 : 60 * (g.startDate % 1440 / 60) + g.startDate % 1440 % 60 =
        g.startDate % 1440 := Nat.div_add_mod _ 60
    have e4 : g.startDate % 1440 % 60 = g.startDate % 60 :=
      Nat.mod_mod_of_dvd _ (by norm_num)
    simp only []
    omega
  rw [checkOverlapWithRecurring, Bool.or_eq_true]
  right
  rw [List.any_eq_true]
  refine ⟨g, List.mem_filter.mpr ⟨hg, ?_⟩, ?_⟩
  · have h1 : g.startDate ≤ combineDateAndTime d g.baseEndTime := by omega
    have h2 : combineDateAndTime d g.baseStartTime ≤ g.endDate := by omega
    simp [h1, h2]
  · rw [groupConflicts, List.any_eq_true]
    exact ⟨d, hd, by simp only [Bool.and_eq_true, decide_eq_true_eq]; omega⟩

/-- The admin per-occurrence creation loop keeps the invariant: each
occurrence is persisted only after the override procedure has cancelled
every confirmed booking on the room matching its interval. -/
theorem createOccurrences_admin_inv {uid now roomId : Nat} {att : List Nat}
    {gid : Nat} {bs be : Nat × Nat} :
    ∀ (dates : List Nat) (st : State) (n : Nat), Inv st → WF st →
      Inv (createOccurrences true uid now roomId att gid bs be dates st n).1 ∧
      WF (createOccurrences true uid now roomId att gid bs be dates st n).1 := by
  intro dates
  induction dates with
  | nil => intro st n hInv hWF; exact ⟨hInv, hWF⟩
  | cons d ds ih =>
    intro st n hInv hWF
    simp only [createOccurrences, if_pos]
    set a := combineDateAndTime d bs
    set e := combineDateAndTime d be
    set st1 := overrideConflicts st uid now roomId a e overrideReasonRecurring with hst1
    obtain ⟨hInv1, hWF1⟩ := overrideConflicts_inv hInv hWF
    cases hc : bookingCreate st1 uid roomId a e att (some gid) with
    | none => exact ⟨hInv1, hWF1⟩
    | some p =>
      obtain ⟨st2, bid⟩ := p
      have hsafe : ∀ b ∈ st1.bookings, b.status = BStatus.confirmed → b.room = roomId →
          overlapCases b.startTime b.endTime a e = false := overrideConflicts_post
      obtain ⟨hInv2, hWF2⟩ := bookingCreate_inv hc hInv1 hWF1 hsafe
      exact ih st2 (n + 1) hInv2 hWF2

/-- The bookings list (and booking id counter) of a state after the
recurring-create branch, non-admin case: when a conflict is reported the
bookings are untouched; moreover the non-admin path can never reach a
successful occurrence write, because each valid occurrence self-conflicts
with the freshly persisted group. -/
theorem createRecurring_inv {s : State} {admin : Bool} {uid now : Nat}
    {r : CreateRequest} {rEnd : Nat} (hInv : Inv s) (hWF : WF s) :
    Inv (createRecurring s admin uid now r rEnd).1 ∧
    WF (createRecurring s admin uid now r rEnd).1 := by
  cases admin with
  | true =>
    simp only [createRecurring, ite_true, ne_eq, not_true_eq_false, not_false_eq_true,
      if_false]
    have hmain := @createOccurrences_admin_inv uid now r.room r.attendees s.nextGroupId
      (timeOfDay r.startTime) (timeOfDay r.endTime)
      (generateRecurringDates r.startTime rEnd (weekday r.startTime))
      { s with
        groups := s.groups ++
          [⟨s.nextGroupId, uid, r.room, weekday r.startTime, r.startTime, rEnd,
            timeOfDay r.startTime, timeOfDay r.endTime⟩],
        nextGroupId := s.nextGroupId + 1 }
      0 hInv hWF
    rcases hco : createOccurrences true uid now r.room r.attendees s.nextGroupId
        (timeOfDay r.startTime) (timeOfDay r.endTime)
        (generateRecurringDates r.startTime rEnd (weekday r.startTime))
        { s with
          groups := s.groups ++
            [⟨s.nextGroupId, uid, r.room, weekday r.startTime, r.startTime, rEnd,
              timeOfDay r.startTime, timeOfDay r.endTime⟩],
          nextGroupId := s.nextGroupId + 1 }
        0 with ⟨st, k, fin⟩
    rw [hco] at hmain
    cases fin
    · exact ⟨hmain.1, hmain.2⟩
    · exact ⟨hmain.1, hmain.2⟩
  | false =>
    simp only [createRecurring, Bool.false_eq_true, reduceIte, ne_eq]
    set g : RecurrenceGroup :=
      ⟨s.nextGroupId, uid, r.room, weekday r.startTime, r.startTime, rEnd,
        timeOfDay r.startTime, timeOfDay r.endTime⟩ with hg
    set s1 : State :=
      { s with groups := s.groups ++ [g], nextGroupId := s.nextGroupId + 1 } with hs1
    have hInv1 : Inv s1 := hInv
    have hWF1 : WF s1 := hWF
    by_cases hnc : (List.filter
        (fun d => checkOverlapWithRecurring s1 r.room
          (combineDateAndTime d (timeOfDay r.startTime))
          (combineDateAndTime d (timeOfDay r.endTime)) none)
        (generateRecurringDates r.startTime rEnd (weekday r.startTime))) = []
    · rw [if_neg (not_not_intro hnc)]
      have hall := List.filter_eq_nil_iff.mp hnc
      cases hdc : generateRecurringDates r.startTime rEnd (weekday r.startTime) with
      | nil =>
        simp only [createOccurrences]
        exact ⟨hInv1, hWF1⟩
      | cons d ds =>
        have hdmem : d ∈ generateRecurringDates r.startTime rEnd (weekday r.startTime) := by
          rw [hdc]; exact List.mem_cons_self d ds
        have hnot := hall d hdmem
        have hinvalid : ¬ combineDateAndTime d (timeOfDay r.startTime) <
            combineDateAndTime d (timeOfDay r.endTime) := by
          intro hvalid
          apply hnot
          have hgmem : g ∈ s1.groups := by
            rw [hs1, hg]
            exact List.mem_append.mpr (Or.inr (List.mem_singleton.mpr rfl))
          exact recurring_self_conflict hgmem (by rw [hg]) (by rw [hg]) (by rw [hg]; exact hdmem) (by rw [hg]; exact hvalid)
        simp only [createOccurrences, Bool.false_eq_true, reduceIte]
        have hnone : bookingCreate s1 uid r.room
            (combineDateAndTime d (timeOfDay r.startTime))
            (combineDateAndTime d (timeOfDay r.endTime)) r.attendees
            (some s.nextGroupId) = none := by
          unfold bookingCreate; rw [if_neg hinvalid]
        rw [hnone]
        exact ⟨hInv1, hWF1⟩
    · rw [if_pos hnc]
      exact ⟨hInv1, hWF1⟩

theorem stampIfP_fields (c : Booking → Prop) [DecidablePred c] (actor now : Nat)
    (reason : String) (b : Booking) :
    ((if c b then cancelStamp b actor now reason else b).id = b.id) ∧
    ((if c b then cancelStamp b actor now reason else b).room = b.room) ∧
    ((if c b then cancelStamp b actor now reason else b).startTime = b.startTime) ∧
    ((if c b then cancelStamp b actor now reason else b).endTime = b.endTime) ∧
    (((if c b then cancelStamp b actor now reason else b).status = BStatus.confirmed) →
      b.status = BStatus.confirmed) := by
  by_cases hp : c b
  · simp [hp, cancelStamp]
  · simp [hp]

theorem eq_of_pairwise_ne {l : List Booking}
    (h : l.Pairwise fun x y => x.id ≠ y.id) :
    ∀ {x y : Booking}, x ∈ l → y ∈ l → x.id = y.id → x = y := by
  induction l with
  | nil => intro x y hx _ _; simp at hx
  | cons a t ih =>
    intro x y hx hy hid
    rw [List.pairwise_cons] at h
    rcases List.mem_cons.mp hx with hxa | hxt
    · rcases List.mem_cons.mp hy with hya | hyt
      · rw [hxa, hya]
      · subst hxa; exact absurd hid (h.1 y hyt)
    · rcases List.mem_cons.mp hy with hya | hyt
      · subst hya; exact absurd hid.symm (h.1 x hxt)
      · exact ih h.2 hxt hyt hid

/-- A stamp-style map (cancel a subset of bookings in place) preserves both
the invariant and well-formedness; the rest of the state may change
arbitrarily except for the id counter. -/
theorem stamp_map_preserves {s : State} {f : Booking → Booking}
    (hfields : ∀ b, (f b).id = b.id ∧ (f b).room = b.room ∧
      (f b).startTime = b.startTime ∧ (f b).endTime = b.endTime ∧
      ((f b).status = BStatus.confirmed → b.status = BStatus.confirmed))
    (hInv : Inv s) (hWF : WF s) {s2 : State}
    (hbk : s2.bookings = s.bookings.map f)
    (hnid : s2.nextBookingId = s.nextBookingId) :
    Inv s2 ∧ WF s2 := by
  obtain ⟨hnd, hlt⟩ := hWF
  refine ⟨?_, ?_, ?_⟩
  · rw [Inv, hbk]
    exact pairwise_disjoint_map
      (fun b => ⟨(hfields b).2.1, (hfields b).2.2.1, (hfields b).2.2.2.1,
        (hfields b).2.2.2.2⟩) hInv
  · rw [hbk]
    exact pairwise_ne_map (fun b => (hfields b).1) hnd
  · rw [hbk, hnid]
    intro b hb
    obtain ⟨x, hx, hfx⟩ := List.mem_map.mp hb
    rw [← hfx, (hfields x).1]
    exact hlt x hx

theorem createSingle_inv {s : State} {admin : Bool} {uid now : Nat} {r : CreateRequest}
    (hInv : Inv s) (hWF : WF s)
    (hscan : admin = false →
      checkOverlapWithRecurring s r.room r.startTime r.endTime none = false) :
    Inv (createSingle s admin uid now r).1 ∧ WF (createSingle s admin uid now r).1 := by
  unfold createSingle
  cases admin with
  | false =>
    simp only [Bool.false_and, Bool.false_eq_true, reduceIte]
    have hsafe : ∀ b ∈ s.bookings, b.status = BStatus.confirmed → b.room = r.room →
        overlapCases b.startTime b.endTime r.startTime r.endTime = false :=
      fun b hb hconf hroom =>
        checkOverlap_false_none (checkOverlap_false_of_scanner_false (hscan rfl))
          b hb hroom hconf
    cases hc : bookingCreate s uid r.room r.startTime r.endTime r.attendees none with
    | none => exact ⟨hInv, hWF⟩
    | some p =>
      obtain ⟨s2, bid⟩ := p
      obtain ⟨hInv2, hWF2⟩ := bookingCreate_inv hc hInv hWF hsafe
      exact ⟨hInv2, hWF2⟩
  | true =>
    simp only [Bool.true_and]
    cases hso : checkOverlapWithRecurring s r.room r.startTime r.endTime none with
    | false =>
      simp only [Bool.false_eq_true, reduceIte]
      have hsafe : ∀ b ∈ s.bookings, b.status = BStatus.confirmed → b.room = r.room →
          overlapCases b.startTime b.endTime r.startTime r.endTime = false :=
        fun b hb hconf hroom =>
          checkOverlap_false_none (checkOverlap_false_of_scanner_false hso)
            b hb hroom hconf
      cases hc : bookingCreate s uid r.room r.startTime r.endTime r.attendees none with
      | none => exact ⟨hInv, hWF⟩
      | some p =>
        obtain ⟨s2, bid⟩ := p
        obtain ⟨hInv2, hWF2⟩ := bookingCreate_inv hc hInv hWF hsafe
        exact ⟨hInv2, hWF2⟩
    | true =>
      simp only [reduceIte]
      obtain ⟨hInv1, hWF1⟩ := @overrideConflicts_inv s uid now r.room r.startTime
        r.endTime overrideReasonSingle hInv hWF
      cases hc : bookingCreate
          (overrideConflicts s uid now r.room r.startTime r.endTime overrideReasonSingle)
          uid r.room r.startTime r.endTime r.attendees none with
      | none => exact ⟨hInv1, hWF1⟩
      | some p =>
        obtain ⟨s2, bid⟩ := p
        obtain ⟨hInv2, hWF2⟩ := bookingCreate_inv hc hInv1 hWF1 overrideConflicts_post
        exact ⟨hInv2, hWF2⟩

theorem createBooking_inv {s : State} {admin : Bool} {uid now : Nat} {r : CreateRequest}
    (hInv : Inv s) (hWF : WF s) :
    Inv (createBooking s admin uid now r).1 ∧ WF (createBooking s admin uid now r).1 := by
  unfold createBooking
  split
  · exact ⟨hInv, hWF⟩
  split
  · exact ⟨hInv, hWF⟩
  split
  · exact ⟨hInv, hWF⟩
  split
  · exact ⟨hInv, hWF⟩
  next hguard =>
    have hscan : admin = false →
        checkOverlapWithRecurring s r.room r.startTime r.endTime none = false := by
      intro ha
      subst ha
      simp only [Bool.not_false, Bool.true_and] at hguard
      cases hsc : checkOverlapWithRecurring s r.room r.startTime r.endTime none with
      | false => rfl
      | true => exact absurd hsc hguard
    split
    · exact createRecurring_inv hInv hWF
    · exact createSingle_inv hInv hWF hscan

/-- The update handler preserves the invariant when its body does not set
`status` (a status-writing body can re-confirm a cancelled overlapping
booking with no check, see `update_setting_status_breaks_invariant`). -/
theorem updateBooking_inv {s : State} {admin : Bool} {uid bid : Nat}
    {newRoom newStart newEnd : Option Nat} {newStatus : Option BStatus}
    (hst : newStatus = none) (hInv : Inv s) (hWF : WF s) :
    Inv (updateBooking s admin uid bid newRoom newStart newEnd newStatus).1 ∧
    WF (updateBooking s admin uid bid newRoom newStart newEnd newStatus).1 := by
  subst hst
  simp only [updateBooking]
  split
  · exact ⟨hInv, hWF⟩
  next b hfind =>
    split
    · exact ⟨hInv, hWF⟩
    split
    · exact ⟨hInv, hWF⟩
    next hover =>
      obtain ⟨hnd, hlt⟩ := hWF
      set rm := newRoom.getD b.room with hrm
      set a := newStart.getD b.startTime with ha
      set e := newEnd.getD b.endTime with he
      set f : Booking → Booking := fun x =>
        if x.id = bid then
          { x with
            room := newRoom.getD x.room
            startTime := newStart.getD x.startTime
            endTime := newEnd.getD x.endTime
            status := (none : Option BStatus).getD x.status }
        else x
        with hf
      have hb_mem : b ∈ s.bookings := List.mem_of_find?_eq_some hfind
      have hb_id : b.id = bid := by
        have := List.find?_some hfind
        simpa using this
      have hgetD_none : ∀ (o : Option Nat) (d : Nat), o.isSome = false → o.getD d = d := by
        intro o d ho
        cases o with
        | none => rfl
        | some v => simp at ho
      have hsafe : (newStart.isSome || newEnd.isSome || newRoom.isSome) = true →
          checkOverlap s rm a e (some bid) = false := by
        intro hpres
        cases hco : checkOverlap s rm a e (some bid) with
        | false => rfl
        | true =>
          rw [hpres, hco] at hover
          simp at hover
      have hsame : (newStart.isSome || newEnd.isSome || newRoom.isSome) = false →
          rm = b.room ∧ a = b.startTime ∧ e = b.endTime := by
        intro hpres
        rw [Bool.or_eq_false_iff, Bool.or_eq_false_iff] at hpres
        obtain ⟨⟨h1, h2⟩, h3⟩ := hpres
        exact ⟨by rw [hrm]; exact hgetD_none _ _ h3,
          by rw [ha]; exact hgetD_none _ _ h1,
          by rw [he]; exact hgetD_none _ _ h2⟩
      have hfid : ∀ x : Booking, (f x).id = x.id := by
        intro x
        rw [hf]
        by_cases hx : x.id = bid
        · simp [hx]
        · simp [hx]
      have hfx_match : ∀ x : Booking, x ∈ s.bookings → x.id = bid →
          (f x).room = rm ∧ (f x).startTime = a ∧ (f x).endTime = e ∧
          (f x).status = x.status ∧ x = b := by
        intro x hxm hx
        have hxb : x = b := eq_of_pairwise_ne hnd hxm hb_mem (by rw [hx, hb_id])
        subst hxb
        rw [hf]
        simp [hx, hrm, ha, he]
      have hfx_skip : ∀ x : Booking, ¬ x.id = bid → f x = x := by
        intro x hx
        rw [hf]
        simp [hx]
      refine ⟨?_, ?_, ?_⟩
      · show (s.bookings.map f).Pairwise bookingsDisjoint
        rw [List.pairwise_map]
        refine (hInv.and hnd).imp_of_mem ?_
        intro x y hx hy hxy
        obtain ⟨hdisj, hne⟩ := hxy
        by_cases hxid : x.id = bid <;> by_cases hyid : y.id = bid
        · exact absurd (hxid.trans hyid.symm) hne
        · obtain ⟨hroomx, hsx, hex, hstx, hxb⟩ := hfx_match x hx hxid
          have hfy := hfx_skip y hyid
          intro hc1 hc2 hroom
          rw [hfy] at hc2 hroom ⊢
          rw [hsx, hex]
          rw [hroomx] at hroom
          cases hpres : (newStart.isSome || newEnd.isSome || newRoom.isSome) with
          | false =>
            obtain ⟨h1, h2, h3⟩ := hsame hpres
            rw [h2, h3]
            rw [← hxb] at h1 ⊢
            exact hdisj (by rw [hstx] at hc1; exact hc1) hc2 (by rw [← h1]; exact hroom)
          | true =>
            have hcs := checkOverlap_false_some (hsafe hpres) y hy hroom.symm hc2 hyid
            exact not_overlap_of_overlapCases_false hcs
        · obtain ⟨hroomy, hsy, hey, hsty, hyb⟩ := hfx_match y hy hyid
          have hfx := hfx_skip x hxid
          intro hc1 hc2 hroom
          rw [hfx] at hc1 hroom ⊢
          rw [hsy, hey]
          rw [hroomy] at hroom
          cases hpres : (newStart.isSome || newEnd.isSome || newRoom.isSome) with
          | false =>
            obtain ⟨h1, h2, h3⟩ := hsame hpres
            rw [h2, h3]
            rw [← hyb] at h1 ⊢
            exact hdisj hc1 (by rw [hsty] at hc2; exact hc2) (hroom.trans h1)
          | true =>
            have hcs := checkOverlap_false_some (hsafe hpres) x hx hroom hc1 hxid
            have hno := not_overlap_of_overlapCases_false hcs
            intro hcon
            exact hno ⟨hcon.2, hcon.1⟩
        · rw [hfx_skip x hxid, hfx_skip y hyid]
          exact hdisj
      · show (s.bookings.map f).Pairwise fun x y => x.id ≠ y.id
        exact pairwise_ne_map hfid hnd
      · show ∀ x ∈ s.bookings.map f, x.id < s.nextBookingId
        intro x hx
        obtain ⟨z, hz, hfz⟩ := List.mem_map.mp hx
        rw [← hfz, hfid z]
        exact hlt z hz

theorem cancelBooking_inv {s : State} {admin : Bool} {uid now bid : Nat} {reason : String}
    (hInv : Inv s) (hWF : WF s) :
    Inv (cancelBooking s admin uid now bid reason).1 ∧
    WF (cancelBooking s admin uid now bid reason).1 := by
  unfold cancelBooking
  split
  · exact ⟨hInv, hWF⟩
  split
  · exact ⟨hInv, hWF⟩
  exact stamp_map_preserves
    (fun b => stampIfP_fields (fun x => x.id = bid) uid now reason b)
    hInv hWF rfl rfl

theorem deleteBooking_inv {s : State} {admin : Bool} {now bid : Nat}
    (hInv : Inv s) (hWF : WF s) :
    Inv (deleteBooking s admin now bid).1 ∧ WF (deleteBooking s admin now bid).1 := by
  unfold deleteBooking
  split
  · exact ⟨hInv, hWF⟩
  split
  · exact ⟨hInv, hWF⟩
  split
  · obtain ⟨hnd, hlt⟩ := hWF
    refine ⟨hInv.filter _, hnd.filter _, ?_⟩
    intro b hb
    exact hlt b (List.mem_of_mem_filter hb)
  · exact ⟨hInv, hWF⟩

theorem deleteRoom_inv {s : State} {uid now roomId : Nat}
    (hInv : Inv s) (hWF : WF s) :
    Inv (deleteRoom s uid now roomId).1 ∧ WF (deleteRoom s uid now roomId).1 := by
  unfold deleteRoom
  split
  · exact ⟨hInv, hWF⟩
  next rm hfind =>
    exact stamp_map_preserves
      (fun b => stampIf_fields (roomDeleteTarget roomId now) uid now
        ("Room \"" ++ rm.name ++ "\" has been deleted by administrator") b)
      hInv hWF rfl rfl

/-! ### Helper lemmas: cancellation versus the scanner, and notifications -/

/-- Marking the bookings with a given id cancelled and removing them are
indistinguishable to the overlap query (which only counts confirmed
bookings). -/
theorem any_query_cancel_eq (roomId a e : Nat) (excl : Option Nat)
    (bid uid now : Nat) (reason : String) :
    ∀ l : List Booking,
      (l.map fun x => if x.id = bid then cancelStamp x uid now reason else x).any
        (fun b => decide (b.room = roomId) && decide (b.status = BStatus.confirmed) &&
          (match excl with
           | none => true
           | some i => decide (b.id ≠ i)) &&
          overlapCases b.startTime b.endTime a e) =
      (l.filter fun x => decide (x.id ≠ bid)).any
        (fun b => decide (b.room = roomId) && decide (b.status = BStatus.confirmed) &&
          (match excl with
           | none => true
           | some i => decide (b.id ≠ i)) &&
          overlapCases b.startTime b.endTime a e) := by
  intro l
  induction l with
  | nil => rfl
  | cons x t ih =>
    simp only [List.map_cons, List.any_cons, List.filter_cons]
    by_cases hx : x.id = bid
    · have h1 : decide (x.id ≠ bid) = false := by simp [hx]
      have h2 : decide ((cancelStamp x uid now reason).status = BStatus.confirmed) = false := by
        simp [cancelStamp]
      rw [if_pos hx, h1]
      simp only [h2, Bool.and_false, Bool.false_and, Bool.false_or, Bool.false_eq_true,
        reduceIte]
      exact ih
    · have h1 : decide (x.id ≠ bid) = true := by simp [hx]
      rw [if_neg hx, h1]
      simp only [reduceIte, List.any_cons]
      rw [ih]

/-- The recurring-aware scanner does not see a booking once it is marked
cancelled: cancelling in place is equivalent to removing the booking. -/
theorem scanner_cancel_eq (s : State) (bid uid now : Nat) (reason : String)
    (notif : List Notification) (roomId a e : Nat) (excl : Option Nat) :
    checkOverlapWithRecurring
      { s with
        bookings := s.bookings.map fun x =>
          if x.id = bid then cancelStamp x uid now reason else x,
        notifications := notif } roomId a e excl =
    checkOverlapWithRecurring
      { s with bookings := s.bookings.filter fun x => decide (x.id ≠ bid) }
      roomId a e excl := by
  unfold checkOverlapWithRecurring checkOverlap
  rw [any_query_cancel_eq]

theorem mem_foldr_notices {b : Booking} {n : Notification}
    (hn : n ∈ roomDeleteNotices b) :
    ∀ l : List Booking, b ∈ l →
      n ∈ l.foldr (fun x acc => roomDeleteNotices x ++ acc) [] := by
  intro l
  induction l with
  | nil => intro h; simp at h
  | cons x t ih =>
    intro h
    rcases List.mem_cons.mp h with h | h
    · subst h
      exact List.mem_append.mpr (Or.inl hn)
    · exact List.mem_append.mpr (Or.inr (ih h))

/-- A non-admin single create on a room the scanner reports free succeeds
and persists a booking under the next id. -/
theorem create_on_free_room (s : State) (uid2 now2 : Nat) (title : String)
    (att : List Nat) (roomId a e : Nat) (rm : Room)
    (hrm : s.rooms.find? (fun x => decide (x.id = roomId)) = some rm)
    (hcap : att.length ≤ rm.capacity)
    (htitle : title ≠ "") (hatt1 : 1 ≤ att.length) (hatt50 : att.length ≤ 50)
    (hvalid : a < e)
    (hfree : checkOverlapWithRecurring s roomId a e none = false) :
    (handleCreateBooking s false uid2 now2 ⟨roomId, title, a, e, att, false, none⟩).2 =
      Result.created s.nextBookingId := by
  have hval : bookingValidation ⟨roomId, title, a, e, att, false, none⟩ = true := by
    simp only [bookingValidation, Bool.and_eq_true, decide_eq_true_eq]
    exact ⟨⟨⟨htitle, hatt1⟩, hatt50⟩, hvalid⟩
  unfold handleCreateBooking
  rw [if_pos hval]
  unfold createBooking
  dsimp only
  have hne : att.isEmpty = false := by
    cases att with
    | nil => simp at hatt1
    | cons _ _ => rfl
  rw [if_neg (by rw [hne]; exact Bool.false_ne_true)]
  rw [hrm]
  dsimp only
  rw [if_neg (by omega : ¬ rm.capacity < att.length)]
  rw [if_neg (by rw [Bool.not_false, Bool.true_and, hfree]; exact Bool.false_ne_true)]
  unfold createSingle
  simp only [Bool.false_and, Bool.false_eq_true, reduceIte]
  unfold bookingCreate
  rw [if_pos hvalid]

/-! ### Claim theorems -/

/-- C1 (counterexample): the invariant "persisted confirmed bookings on a
resource are pairwise non-overlapping, including under concurrent writers"
fails on the code: when two non-admin creates for the identical interval on
the same room interleave so that both scans run before either write — a
schedule the `await` points allow — both bookings persist as confirmed and
overlap. -/
theorem concurrent_overlapping_creates_both_persist :
    ¬ Inv (interleavedNonAdminCreates sEmpty 5 6 rqA rqA) := by
  intro h
  have hb : (interleavedNonAdminCreates sEmpty 5 6 rqA rqA).bookings =
      [bkRace1, bkRace2] := by decide
  have hp : List.Pairwise bookingsDisjoint [bkRace1, bkRace2] := by
    rw [← hb]; exact h
  have hd := (List.pairwise_cons.mp hp).1 bkRace2 (by simp)
  exact hd rfl rfl rfl ⟨by decide, by decide⟩

/-- Supporting evidence for the amended C1: the faithful update handler
lets a body of just `status: confirmed` revive a cancelled booking with no
overlap check (bookingController.js line 390 fires only when room, start or
end is present), so even an atomically executed update that writes `status`
can break the invariant — from a store reachable after an admin override. -/
theorem update_setting_status_breaks_invariant :
    Inv sRev ∧
    (updateBooking sRev true 9 2 none none none (some BStatus.confirmed)).2 =
      Result.ok ∧
    ¬ Inv (updateBooking sRev true 9 2 none none none (some BStatus.confirmed)).1 := by
  refine ⟨?_, by decide, ?_⟩
  · refine List.Pairwise.cons ?_ (List.pairwise_singleton _ _)
    intro y hy
    rw [List.mem_singleton] at hy
    subst hy
    intro _ hc2 _
    exact absurd hc2 (by decide)
  · intro h
    have hb : (updateBooking sRev true 9 2 none none none
        (some BStatus.confirmed)).1.bookings =
        [⟨1, 1, 7, [7], 540, 600, BStatus.confirmed, none, none, none, none⟩,
         ⟨2, 1, 8, [8], 540, 600, BStatus.confirmed, some 9, some 100,
           some overrideReasonSingle, none⟩] := by decide
    have hp : List.Pairwise bookingsDisjoint
        [⟨1, 1, 7, [7], 540, 600, BStatus.confirmed, none, none, none, none⟩,
         ⟨2, 1, 8, [8], 540, 600, BStatus.confirmed, some 9, some 100,
           some overrideReasonSingle, none⟩] := by
      rw [← hb]; exact h
    have hd := (List.pairwise_cons.mp hp).1 _ (List.mem_singleton.mpr rfl)
    exact hd rfl rfl rfl ⟨by decide, by decide⟩

/-- C1 (amended): every operation of the Lifecycle Manager — single or
recurring create, update (for bodies not writing `status`), cancel, delete,
and room deletion — preserves the pairwise non-overlap of confirmed
bookings per room when executed atomically (sequentially); the concurrent
part of the claim fails (see the counterexample), and a status-writing
update can break the invariant even sequentially (see
`update_setting_status_breaks_invariant`). -/
theorem sequential_operations_preserve_confirmed_disjointness (s : State) (op : Op)
    (hop : op.noStatusWrite) (hWF : WF s) (hInv : Inv s) :
    Inv (step s op) ∧ WF (step s op) := by
  cases op with
  | create admin uid now r =>
    simp only [step, handleCreateBooking]
    split
    · exact createBooking_inv hInv hWF
    · exact ⟨hInv, hWF⟩
  | update admin uid bid nr na ne nst =>
    simp only [step]
    exact updateBooking_inv hop hInv hWF
  | cancel admin uid now bid reason =>
    simp only [step]
    exact cancelBooking_inv hInv hWF
  | delete admin now bid =>
    simp only [step]
    exact deleteBooking_inv hInv hWF
  | removeRoom uid now roomId =>
    simp only [step]
    exact deleteRoom_inv hInv hWF

/-- C1 (witness): the preservation theorem applied to a concrete store and a
concrete create request. -/
theorem sequential_preservation_witness :
    WF sEmpty ∧ Inv sEmpty ∧ Inv (step sEmpty (Op.create false 5 0 rqA)) := by
  have hWF : WF sEmpty := by
    refine ⟨?_, ?_⟩
    · exact List.Pairwise.nil
    · intro b hb; simp [sEmpty] at hb
  have hInv : Inv sEmpty := List.Pairwise.nil
  exact ⟨hWF, hInv,
    (sequential_operations_preserve_confirmed_disjointness sEmpty
      (Op.create false 5 0 rqA) trivial hWF hInv).1⟩

/-- C2 (code bug, evaluated): a non-privileged weekly recurring request on a
completely empty store — no existing booking conflicts with any occurrence —
is nevertheless rejected with a conflict list naming every occurrence date
(each occurrence collides with the RecurrenceGroup the request itself just
persisted), no occurrence is written, and the RecurrenceGroup record remains
persisted. -/
theorem nonadmin_recurring_self_conflict_eval :
    (handleCreateBooking sEmpty false 5 777 rqRec).2 =
      Result.recurringConflict [540, 10620] ∧
    (handleCreateBooking sEmpty false 5 777 rqRec).1.bookings = [] ∧
    (handleCreateBooking sEmpty false 5 777 rqRec).1.groups =
      [⟨1, 5, 1, 4, 540, 10620, (9, 0), (10, 0)⟩] := by decide

/-- C3: for intervals with strictly positive duration on both sides, the
four boundary cases of the overlap query are equivalent to the
two-inequality form, and intervals that merely touch at an endpoint are not
reported as overlapping. -/
theorem overlap_four_cases_equiv_two_inequalities (bs be a e : Nat)
    (hae : a < e) (hb : bs < be) :
    (overlapCases bs be a e = true ↔ (a < be ∧ bs < e)) ∧
    (bs = e ∨ be = a → overlapCases bs be a e = false) := by
  have hiff := overlapCases_iff_overlap hae hb
  refine ⟨hiff, ?_⟩
  intro htouch
  cases hov : overlapCases bs be a e
  · rfl
  · have := hiff.mp hov
    omega

/-- C3 (witness): the equivalence applied to the touching pair
[5,10) and [10,20). -/
theorem overlap_equiv_witness :
    (5 : Nat) < 10 ∧ (10 : Nat) < 20 ∧ overlapCases 10 20 5 10 = false :=
  ⟨by decide, by decide,
    (overlap_four_cases_equiv_two_inequalities 10 20 5 10 (by decide) (by decide)).2
      (Or.inl rfl)⟩

/-- C5 (code bug, evaluated): a privileged weekly recurring create does run
the override per occurrence (here cancelling exactly the one conflicting
booking, stamping the recurring-override reason) and persists one booking
per occurrence, but the request then fails with a `ReferenceError`:
building the success response reads the undefined `failedDates`
(bookingController.js line 263), so it never completes successfully
reporting the created count. -/
theorem admin_recurring_reference_error_eval :
    (handleCreateBooking sC5 true 9 888 rqRec).2 = Result.referenceError ∧
    (handleCreateBooking sC5 true 9 888 rqRec).1.bookings.map Booking.status =
      [BStatus.cancelled, BStatus.confirmed, BStatus.confirmed] ∧
    (handleCreateBooking sC5 true 9 888 rqRec).1.bookings.map Booking.cancellationReason =
      [some overrideReasonRecurring, none, none] ∧
    (handleCreateBooking sC5 true 9 888 rqRec).1.bookings.map Booking.startTime =
      [540, 540, 10620] := by decide

/-- C7: the recurrence expander yields exactly the ordered weekly sequence:
every element falls on the requested weekday, lies between the anchor and
the end date, consecutive elements are exactly 7 days apart, the head is
the first day on or after the anchor falling on that weekday (and the
result is empty precisely when that first day exceeds the end date), no
earlier day qualifies, and the function is deterministic. -/
theorem generateRecurringDates_spec (a e w : Nat) (hw : w < 7) :
    (∀ x ∈ generateRecurringDates a e w, weekday x = w) ∧
    (∀ x ∈ generateRecurringDates a e w, a ≤ x ∧ x ≤ e) ∧
    List.Chain' (fun x y => y = x + 10080) (generateRecurringDates a e w) ∧
    (generateRecurringDates a e w).head? =
      (if a + ((w + 7 - weekday a) % 7) * 1440 ≤ e
        then some (a + ((w + 7 - weekday a) % 7) * 1440) else none) ∧
    (generateRecurringDates a e w = [] ↔
      e < a + ((w + 7 - weekday a) % 7) * 1440) ∧
    (∀ j, j < (w + 7 - weekday a) % 7 → weekday (a + j * 1440) ≠ w) ∧
    generateRecurringDates a e w = generateRecurringDates a e w := by
  refine ⟨?_, ?_, ?_, ?_, ?_, advanceToWeekday7_min, rfl⟩
  · intro x hx
    exact (generateRecurringDates_mem hw hx).2.2.1
  · intro x hx
    exact ⟨(generateRecurringDates_mem hw hx).1, (generateRecurringDates_mem hw hx).2.1⟩
  · exact collectWeekly_chain _ _ _
  · unfold generateRecurringDates
    rw [advanceToWeekday7_eq hw]
    by_cases hle : a + ((w + 7 - weekday a) % 7) * 1440 ≤ e
    · rw [if_pos hle]
      exact collectWeekly_head? (by omega) hle
    · rw [if_neg hle]
      rw [(collectWeekly_eq_nil_iff (by omega)).mpr (by omega)]
      rfl
  · unfold generateRecurringDates
    rw [advanceToWeekday7_eq hw]
    exact collectWeekly_eq_nil_iff (by omega)

/-- C7 (witness): the expander at anchor 700 (a Thursday, 11:40), weekday
6 and end date 4000 produces the Saturday two days later as its head. -/
theorem generateRecurringDates_witness :
    (6 : Nat) < 7 ∧
    (generateRecurringDates 700 4000 6).head? =
      (if 700 + ((6 + 7 - weekday 700) % 7) * 1440 ≤ 4000
        then some (700 + ((6 + 7 - weekday 700) % 7) * 1440) else none) :=
  ⟨by decide, (generateRecurringDates_spec 700 4000 6 (by decide)).2.2.2.1⟩

/-- C10: a create request with more than 50 attendees is rejected by the
route validation before the controller runs (the state is untouched), and
any request that does persist bookings targeted an existing room and had an
attendee count n with 1 ≤ n ≤ capacity and n ≤ 50. -/
theorem attendee_limit_enforced (s : State) (admin : Bool) (uid now : Nat)
    (r : CreateRequest) :
    (50 < r.attendees.length →
      handleCreateBooking s admin uid now r = (s, Result.validationFailed)) ∧
    ((handleCreateBooking s admin uid now r).1.bookings ≠ s.bookings →
      ∃ rm ∈ s.rooms, rm.id = r.room ∧ 1 ≤ r.attendees.length ∧
        r.attendees.length ≤ rm.capacity ∧ r.attendees.length ≤ 50) := by
  constructor
  · intro h50
    have hval : bookingValidation r = false := by
      simp only [bookingValidation]
      have h : decide (r.attendees.length ≤ 50) = false := by
        simp only [decide_eq_false_iff_not]
        omega
      rw [h]
      simp
    unfold handleCreateBooking
    rw [hval]
    simp
  · intro hch
    unfold handleCreateBooking at hch
    cases hval : bookingValidation r with
    | false =>
      rw [hval] at hch
      simp at hch
    | true =>
      rw [hval] at hch
      simp only [reduceIte] at hch
      have hv := hval
      simp only [bookingValidation, Bool.and_eq_true, decide_eq_true_eq] at hv
      obtain ⟨⟨⟨ht, h1⟩, h50⟩, hlt⟩ := hv
      unfold createBooking at hch
      split at hch
      · simp at hch
      split at hch
      · simp at hch
      next rm hfm =>
        split at hch
        next hcap =>
          simp at hch
        next hcap =>
          refine ⟨rm, List.mem_of_find?_eq_some hfm, ?_, h1, by omega, h50⟩
          have := List.find?_some hfm
          simpa using this

/-- C4: the override procedure cancels exactly the confirmed bookings on the
given room whose intervals overlap the candidate interval (two-inequality
sense), stamping each with the overriding actor, the instant, and the given
administrative reason; every other booking — non-overlapping, other room,
or not confirmed — is untouched; and a second run (any actor, instant and
reason) changes nothing. -/
theorem override_cancels_exactly_and_idempotent (s : State)
    (actor now actor2 now2 roomId a e : Nat) (reason reason2 : String)
    (hv : ∀ b ∈ s.bookings, b.startTime < b.endTime) (hae : a < e) :
    List.Forall₂ (fun b b' =>
        ((b.status = BStatus.confirmed ∧ b.room = roomId ∧
            a < b.endTime ∧ b.startTime < e) →
          b'.status = BStatus.cancelled ∧ b'.cancelledBy = some actor ∧
          b'.cancelledAt = some now ∧ b'.cancellationReason = some reason ∧
          b'.id = b.id ∧ b'.room = b.room ∧ b'.startTime = b.startTime ∧
          b'.endTime = b.endTime) ∧
        (¬(b.status = BStatus.confirmed ∧ b.room = roomId ∧
            a < b.endTime ∧ b.startTime < e) → b' = b))
      s.bookings (overrideConflicts s actor now roomId a e reason).bookings ∧
    overrideConflicts (overrideConflicts s actor now roomId a e reason)
      actor2 now2 roomId a e reason2 =
      overrideConflicts s actor now roomId a e reason := by
  have htarget : ∀ b ∈ s.bookings, (overrideTarget roomId a e b = true ↔
      (b.status = BStatus.confirmed ∧ b.room = roomId ∧
        a < b.endTime ∧ b.startTime < e)) := by
    intro b hb
    simp only [overrideTarget, Bool.and_eq_true, decide_eq_true_eq]
    constructor
    · rintro ⟨⟨hr, hc⟩, hcase⟩
      have := (overlapCases_iff_overlap hae (hv b hb)).mp hcase
      exact ⟨hc, hr, this.1, this.2⟩
    · rintro ⟨hc, hr, h1, h2⟩
      exact ⟨⟨hr, hc⟩, overlapCases_of_overlap h1 h2⟩
  constructor
  · rw [overrideConflicts_bookings, List.forall₂_map_right_iff, List.forall₂_same]
    intro b hb
    constructor
    · intro hmatch
      rw [if_pos ((htarget b hb).mpr hmatch)]
      simp [cancelStamp]
    · intro hno
      rw [if_neg (fun hyes => hno ((htarget b hb).mp hyes))]
  · have hpost : ∀ b' ∈ (overrideConflicts s actor now roomId a e reason).bookings,
        overrideTarget roomId a e b' = false := by
      intro b' hb'
      by_cases h1 : b'.room = roomId
      · by_cases h2 : b'.status = BStatus.confirmed
        · have := overrideConflicts_post b' hb' h2 h1
          simp [overrideTarget, h1, h2, this]
        · simp [overrideTarget, h2]
      · simp [overrideTarget, h1]
    set s1 := overrideConflicts s actor now roomId a e reason with hs1
    have hmap : (s1.bookings.map fun b =>
        if overrideTarget roomId a e b then cancelStamp b actor2 now2 reason2 else b) =
        s1.bookings := by
      have hid : ∀ x ∈ s1.bookings,
          (if overrideTarget roomId a e x then cancelStamp x actor2 now2 reason2 else x) =
            id x := by
        intro x hx
        rw [if_neg (by rw [hpost x hx]; exact Bool.false_ne_true)]
        rfl
      rw [List.map_congr_left hid, List.map_id]
    have hfil : s1.bookings.filter (overrideTarget roomId a e) = [] :=
      List.filter_eq_nil_iff.mpr
        (fun x hx => by rw [hpost x hx]; exact Bool.false_ne_true)
    unfold overrideConflicts
    rw [hmap, hfil]
    simp only [List.map_nil, List.append_nil]

/-- C4 (witness): the override procedure run twice on a store with two
conflicting and one unaffected booking. -/
theorem override_witness :
    overrideConflicts (overrideConflicts sC4 9 100 1 630 870 overrideReasonSingle)
      9 200 1 630 870 overrideReasonSingle =
    overrideConflicts sC4 9 100 1 630 870 overrideReasonSingle :=
  (override_cancels_exactly_and_idempotent sC4 9 100 9 200 1 630 870
    overrideReasonSingle overrideReasonSingle (by decide) (by decide)).2

/-- C6 (counterexample): the update path does not use the recurring-aware
Scanner.  Moving booking 1 onto room 1 at an interval that collides with a
stored RecurrenceGroup occurrence succeeds (`ok`), even though the
recurring-aware scanner — which the claim says the update re-runs —
reports a conflict for exactly that interval. -/
theorem update_ignores_recurring_scanner_counterexample :
    (updateBooking sC6 true 9 1 (some 1) (some 540) (some 600) none).2 = Result.ok ∧
    checkOverlapWithRecurring sC6 1 540 600 (some 1) = true := by decide

/-- C6 (amended): an update whose body carries any of room, start or end
re-runs the plain confirmed-booking overlap check `checkOverlap` (not the
recurring-aware scanner) with the booking's own id excluded, failing with
Conflict exactly when that check reports a collision; and the update path
never cancels anything — every booking's status, and the notification log,
are unchanged. -/
theorem update_conflict_uses_plain_check (s : State) (admin : Bool) (uid bid : Nat)
    (newRoom newStart newEnd : Option Nat) (b : Booking)
    (hfind : s.bookings.find? (fun x => decide (x.id = bid)) = some b)
    (hauth : admin = true ∨ uid = b.bookedBy) :
    ((updateBooking s admin uid bid newRoom newStart newEnd none).2 = Result.conflict ↔
      ((newStart.isSome || newEnd.isSome || newRoom.isSome) = true ∧
        checkOverlap s (newRoom.getD b.room) (newStart.getD b.startTime)
          (newEnd.getD b.endTime) (some bid) = true)) ∧
    (updateBooking s admin uid bid newRoom newStart newEnd none).1.bookings.map
        Booking.status =
      s.bookings.map Booking.status ∧
    (updateBooking s admin uid bid newRoom newStart newEnd none).1.notifications =
      s.notifications := by
  have hauthb : (!admin && decide (uid ≠ b.bookedBy)) = false := by
    cases hauth with
    | inl h => simp [h]
    | inr h => simp [h]
  simp only [updateBooking, hfind]
  rw [if_neg (by rw [hauthb]; exact Bool.false_ne_true)]
  by_cases hov : ((newStart.isSome || newEnd.isSome || newRoom.isSome) &&
      checkOverlap s (newRoom.getD b.room) (newStart.getD b.startTime)
        (newEnd.getD b.endTime) (some bid)) = true
  · rw [if_pos hov]
    rw [Bool.and_eq_true] at hov
    exact ⟨iff_of_true rfl hov, rfl, rfl⟩
  · rw [if_neg hov]
    rw [Bool.and_eq_true] at hov
    refine ⟨iff_of_false (by simp) hov, ?_, rfl⟩
    rw [List.map_map]
    apply List.map_congr_left
    intro x _
    by_cases hxid : x.id = bid
    · simp [Function.comp, hxid]
    · simp [Function.comp, hxid]

/-- C6 (witness): the amended update theorem at the concrete store. -/
theorem update_conflict_witness :
    (updateBooking sC6 true 9 1 (some 1) (some 540) (some 600) none).1.notifications =
      sC6.notifications :=
  (update_conflict_uses_plain_check sC6 true 9 1 (some 1) (some 540) (some 600)
    ⟨1, 2, 5, [5], 100000, 100060, BStatus.confirmed, none, none, none, none⟩
    (by decide) (Or.inl rfl)).2.2

/-- C8: cancelling a confirmed booking always succeeds for an authorized
actor; the recurring-aware scanner then treats the store exactly as if the
booking had been removed (cancelled bookings never block it); and when
nothing else conflicts a non-privileged create for the identical interval
on the same room succeeds. -/
theorem cancel_then_recreate_succeeds (s : State) (admin : Bool)
    (uid now uid2 now2 : Nat) (reason : String) (b : Booking)
    (title : String) (att : List Nat) (rm : Room)
    (hmem : b ∈ s.bookings) (hWF : WF s)
    (hauth : admin = true ∨ uid = b.bookedBy)
    (hvalid : b.startTime < b.endTime) (htitle : title ≠ "")
    (hatt1 : 1 ≤ att.length) (hatt50 : att.length ≤ 50)
    (hrm : s.rooms.find? (fun x => decide (x.id = b.room)) = some rm)
    (hcap : att.length ≤ rm.capacity)
    (hfree : checkOverlapWithRecurring
      { s with bookings := s.bookings.filter fun x => decide (x.id ≠ b.id) }
      b.room b.startTime b.endTime none = false) :
    (cancelBooking s admin uid now b.id reason).2 = Result.ok ∧
    checkOverlapWithRecurring (cancelBooking s admin uid now b.id reason).1
      b.room b.startTime b.endTime none = false ∧
    (handleCreateBooking (cancelBooking s admin uid now b.id reason).1 false uid2 now2
      ⟨b.room, title, b.startTime, b.endTime, att, false, none⟩).2 =
      Result.created (cancelBooking s admin uid now b.id reason).1.nextBookingId := by
  obtain ⟨hnd, hltid⟩ := hWF
  have hfind : s.bookings.find? (fun x => decide (x.id = b.id)) = some b := by
    cases hfo : s.bookings.find? (fun x => decide (x.id = b.id)) with
    | none =>
      rw [List.find?_eq_none] at hfo
      exact absurd (by simp) (hfo b hmem)
    | some x =>
      have hx1 : x ∈ s.bookings := List.mem_of_find?_eq_some hfo
      have hx2 : x.id = b.id := by simpa using List.find?_some hfo
      rw [eq_of_pairwise_ne hnd hx1 hmem hx2]
  have hauthb : (!admin && decide (uid ≠ b.bookedBy)) = false := by
    cases hauth with
    | inl h => simp [h]
    | inr h => simp [h]
  have hcb : cancelBooking s admin uid now b.id reason =
      ({ s with
          bookings := s.bookings.map fun x =>
            if x.id = b.id then cancelStamp x uid now reason else x,
          notifications := s.notifications ++
            [⟨b.bookedBy, if admin then NType.adminOverride else NType.bookingCancelled,
              some b.id, some b.room⟩] }, Result.ok) := by
    simp only [cancelBooking, hfind]
    rw [if_neg (by rw [hauthb]; exact Bool.false_ne_true)]
  rw [hcb]
  have hscan : checkOverlapWithRecurring
      ({ s with
          bookings := s.bookings.map fun x =>
            if x.id = b.id then cancelStamp x uid now reason else x,
          notifications := s.notifications ++
            [⟨b.bookedBy, if admin then NType.adminOverride else NType.bookingCancelled,
              some b.id, some b.room⟩] } : State)
      b.room b.startTime b.endTime none = false := by
    rw [scanner_cancel_eq]
    exact hfree
  refine ⟨rfl, hscan, ?_⟩
  exact create_on_free_room _ uid2 now2 title att b.room b.startTime b.endTime rm
    hrm hcap htitle hatt1 hatt50 hvalid hscan

/-- C8 (witness): cancel booking 1 on the one-booking store, then recreate
the identical interval as a different non-privileged user. -/
theorem cancel_then_recreate_witness :
    (handleCreateBooking (cancelBooking sW8 false 5 50 1 "freed").1 false 6 60
      ⟨1, "retry", 540, 600, [6], false, none⟩).2 =
      Result.created (cancelBooking sW8 false 5 50 1 "freed").1.nextBookingId := by
  have hWF : WF sW8 := by
    refine ⟨?_, ?_⟩
    · simp only [sW8]
      exact List.pairwise_singleton _ _
    · intro x hx
      simp only [sW8, List.mem_singleton] at hx
      rw [hx]
      decide
  exact (cancel_then_recreate_succeeds sW8 false 5 50 6 60 "freed" bkW8 "retry" [6]
    roomA (by decide) hWF (Or.inr rfl) (by decide) (by decide) (by decide) (by decide)
    (by decide) (by decide) (by decide)).2.2

/-- C9: deleting a room cancels exactly the confirmed bookings on that room
whose start time is at or after now — stamping the deleting actor, the
instant, and the room-deletion reason — leaves every other booking
(already-started, non-confirmed, or other-room) untouched, removes the room
record, reports the number cancelled, and notifies the organizer and every
attendee of each cancelled booking.  In particular a booking can become
`cancelled` through room deletion. -/
theorem deleteRoom_cancels_future_confirmed (s : State) (uid now roomId : Nat)
    (rm : Room)
    (hfind : s.rooms.find? (fun x => decide (x.id = roomId)) = some rm) :
    (deleteRoom s uid now roomId).2 =
      Result.deletedRoom (s.bookings.filter (roomDeleteTarget roomId now)).length ∧
    List.Forall₂ (fun b b' =>
        ((b.room = roomId ∧ b.status = BStatus.confirmed ∧ now ≤ b.startTime) →
          b'.status = BStatus.cancelled ∧ b'.cancelledBy = some uid ∧
          b'.cancelledAt = some now ∧
          b'.cancellationReason =
            some ("Room \"" ++ rm.name ++ "\" has been deleted by administrator") ∧
          b'.id = b.id ∧ b'.room = b.room ∧ b'.startTime = b.startTime ∧
          b'.endTime = b.endTime) ∧
        (¬(b.room = roomId ∧ b.status = BStatus.confirmed ∧ now ≤ b.startTime) →
          b' = b))
      s.bookings (deleteRoom s uid now roomId).1.bookings ∧
    (deleteRoom s uid now roomId).1.rooms =
      s.rooms.filter (fun x => decide (x.id ≠ roomId)) ∧
    (∀ b ∈ s.bookings, b.room = roomId → b.status = BStatus.confirmed →
      now ≤ b.startTime →
      (⟨b.bookedBy, NType.roomDeleted, some b.id, none⟩ : Notification) ∈
        (deleteRoom s uid now roomId).1.notifications ∧
      ∀ u ∈ b.attendees, (⟨u, NType.roomDeleted, some b.id, none⟩ : Notification) ∈
        (deleteRoom s uid now roomId).1.notifications) := by
  have htarget : ∀ b : Booking, (roomDeleteTarget roomId now b = true ↔
      (b.room = roomId ∧ b.status = BStatus.confirmed ∧ now ≤ b.startTime)) := by
    intro b
    simp [roomDeleteTarget, and_assoc]
  simp only [deleteRoom, hfind]
  refine ⟨trivial, ?_, trivial, ?_⟩
  · rw [List.forall₂_map_right_iff, List.forall₂_same]
    intro b _
    constructor
    · intro hm
      rw [if_pos ((htarget b).mpr hm)]
      simp [cancelStamp]
    · intro hm
      rw [if_neg (fun hyes => hm ((htarget b).mp hyes))]
  · intro b hb hroom hconf hfut
    have hmemf : b ∈ s.bookings.filter (roomDeleteTarget roomId now) :=
      List.mem_filter.mpr ⟨hb, (htarget b).mpr ⟨hroom, hconf, hfut⟩⟩
    constructor
    · exact List.mem_append.mpr (Or.inr
        (mem_foldr_notices (List.mem_cons_self _ _) _ hmemf))
    · intro u hu
      exact List.mem_append.mpr (Or.inr
        (mem_foldr_notices
          (List.mem_cons.mpr (Or.inr (List.mem_map.mpr ⟨u, hu, rfl⟩))) _ hmemf))

/-- C9 (witness): deleting room 1 at instant 1000 from the three-booking
store cancels exactly the one future confirmed booking on it. -/
theorem deleteRoom_witness :
    (deleteRoom sW9 9 1000 1).2 =
      Result.deletedRoom (sW9.bookings.filter (roomDeleteTarget 1 1000)).length :=
  (deleteRoom_cancels_future_confirmed sW9 9 1000 1 roomA (by decide)).1

/-- C10 (witness): a 51-attendee request is rejected by validation with the
store untouched. -/
theorem attendee_limit_witness :
    handleCreateBooking sEmpty false 5 0 rqBig = (sEmpty, Result.validationFailed) :=
  (attendee_limit_enforced sEmpty false 5 0 rqBig).1 (by decide)

end RoomBooking
